import Mathlib

/-!
Shallow embedding of the STUN wire-level core of the repository
(`src/crates/stun-types`): framing primitives (`lib.rs`, `header.rs`),
the eager message builder (`builder.rs`), the parser and
`check_if_stun_message` (`msg.rs`), and the attribute codecs the claims
touch (`attributes/addr.rs`, `attributes/integrity.rs`,
`attributes/password_algs.rs`).

Byte buffers are `List Nat` with entries taken modulo 256 at every read,
machine integers are `Nat` with explicit masking where the Rust types
truncate.  The host is modeled as little-endian, which matters exactly
where the source uses `from_ne_bytes` / `to_ne_bytes`
(`check_if_stun_message`, `encode_addr`, `MessageBuilder::set_len`); all
network I/O in the source goes through `byteorder::NetworkEndian` and is
modeled big-endian.  External crates (`hmac`, `sha1`, `md5`) are
abstracted as function parameters: only their output lengths matter to
the claims.
-/

namespace Stun

/-- The STUN magic cookie, `const COOKIE: u32 = 0x2112A442` (lib.rs). -/
def COOKIE : Nat := 0x2112A442

/-- Functions `padding_u16` / `padding_usize` (lib.rs): bytes needed to reach 4-byte alignment. -/
def padding4 (n : Nat) : Nat :=
  match n % 4 with
  | 0 => 0
  | 1 => 3
  | 2 => 2
  | _ => 1

/-- The `k` big-endian bytes of `n` (`BufMut::put_u16/u32/u128`, network order). -/
def beBytes : Nat → Nat → List Nat
  | 0, _ => []
  | k + 1, n => (n >>> (8 * k)) % 256 :: beBytes k n

/-- Big-endian value of a byte list (`byteorder::NetworkEndian` reads);
entries are bytes, taken mod 256. -/
def beVal (l : List Nat) : Nat := l.foldl (fun acc b => acc * 256 + b % 256) 0

/-- Little-endian value of a byte list (`uN::from_ne_bytes` on a little-endian host). -/
def leVal (l : List Nat) : Nat := l.foldr (fun b acc => acc * 256 + b % 256) 0

/-- Operation `Bytes::slice(s..e)` on a byte list. -/
def sliceL (l : List Nat) (s e : Nat) : List Nat := (l.drop s).take (e - s)

/-- Expression `uN::from_ne_bytes(x.octets())` on a little-endian host: the value whose
little-endian bytes are the `k` big-endian bytes of `n`, i.e. a byte swap. -/
def byteSwap : Nat → Nat → Nat
  | 0, _ => 0
  | k + 1, n => (n % 256) * 2 ^ (8 * k) + byteSwap k (n >>> 8)

/-- Type `attributes::Error` (attributes/mod.rs).  `tryFromInt` is the
`TryFromInt` variant, `utf8` the `Utf8` variant. -/
inductive Error
  | invalidData (msg : String)
  | tryFromInt
  | utf8
deriving DecidableEq, Repr

/-- The error every failed cursor read maps to
(`impl From<io::Error> for Error`, attributes/mod.rs). -/
def readErrE : Error := Error.invalidData "failed to read from buffer"

/-- Message class (header.rs / msg.rs). -/
inductive Class
  | request
  | indication
  | success
  | error
deriving DecidableEq, Repr

/-- Message method (header.rs / msg.rs). -/
inductive Method
  | binding
deriving DecidableEq, Repr

def Class.MASK : Nat := 0x110

def Method.MASK : Nat := 0x3EEF

/-- Function `Class::set` (header.rs): `*typ &= Method::MASK` then or-in the class bits. -/
def Class.setTyp (c : Class) (typ : Nat) : Nat :=
  (typ &&& Method.MASK) |||
    (match c with
     | .request => 0x000
     | .indication => 0x010
     | .success => 0x100
     | .error => 0x110)

/-- Function `Method::set` (header.rs): `*typ &= Class::MASK` then or-in the method bits. -/
def Method.setTyp (m : Method) (typ : Nat) : Nat :=
  (typ &&& Class.MASK) ||| (match m with | .binding => 0x1)

/-- Impl `TryFrom<u16> for Class` (header.rs/msg.rs): match on `value & 0x110`. -/
def classTryFrom (v : Nat) : Except Error Class :=
  if v &&& Class.MASK = 0x000 then .ok .request
  else if v &&& Class.MASK = 0x010 then .ok .indication
  else if v &&& Class.MASK = 0x100 then .ok .success
  else if v &&& Class.MASK = 0x110 then .ok .error
  else .error (Error.invalidData "unknown class")

/-- Impl `TryFrom<u16> for Method` (header.rs/msg.rs): match on `value & 0x3EEF`. -/
def methodTryFrom (v : Nat) : Except Error Method :=
  if v &&& Method.MASK = 0x1 then .ok .binding
  else .error (Error.invalidData "unknown method")

/-- Type `std::net::SocketAddr`: the ip is the numeric (big-endian) address value,
as `Ipv4Addr::from(u32)` / `Ipv6Addr::from(u128)` interpret it. -/
inductive SockAddr
  | v4 (ip : Nat) (port : Nat)
  | v6 (ip : Nat) (port : Nat)
deriving DecidableEq, Repr

/-- Function `decode_addr` (attributes/addr.rs lines 10-35). -/
def decodeAddr (buf : List Nat) (x16 x32 x128 : Nat) : Except Error SockAddr :=
  if buf.length < 1 then .error readErrE
  else if buf.getD 0 0 % 256 ≠ 0 then .error (Error.invalidData "first byte must be zero")
  else if buf.length < 2 then .error readErrE
  else if buf.length < 4 then .error readErrE
  else
    let family := buf.getD 1 0 % 256
    let port := beVal (sliceL buf 2 4) ^^^ x16
    if family = 1 then
      if buf.length < 8 then .error readErrE
      else .ok (SockAddr.v4 (beVal (sliceL buf 4 8) ^^^ x32) port)
    else if family = 2 then
      if buf.length < 20 then .error readErrE
      else .ok (SockAddr.v6 (beVal (sliceL buf 4 20) ^^^ x128) port)
    else .error (Error.invalidData "invalid address family")

/-- Function `encode_addr` (attributes/addr.rs lines 37-60) on a little-endian host,
returning the bytes it appends to the builder buffer.  The port is XORed
numerically; the address is first reinterpreted through
`u32/u128::from_ne_bytes(octets)` (a byte swap on little-endian), XORed,
then written big-endian by `put_u32`/`put_u128`. -/
def encodeAddr (a : SockAddr) (x16 x32 x128 : Nat) : List Nat :=
  match a with
  | .v4 ip port => 0 :: 1 :: (beBytes 2 (port ^^^ x16) ++ beBytes 4 (byteSwap 4 ip ^^^ x32))
  | .v6 ip port => 0 :: 2 :: (beBytes 2 (port ^^^ x16) ++ beBytes 16 (byteSwap 16 ip ^^^ x128))

/-- Constant `XOR16 = (COOKIE & 0xFFFF) as u16` (attributes/addr.rs line 8):
the LOW 16 bits of the cookie, 0xA442. -/
def XOR16 : Nat := COOKIE &&& 0xFFFF

/-- Function `MappedAddress::encode_len` (attributes/addr.rs lines 79-84). -/
def mappedAddressEncodeLen : SockAddr → Except Error Nat
  | .v4 _ _ => .ok 64
  | .v6 _ _ => .ok 160

/-- Function `XorMappedAddress::encode_len` (attributes/addr.rs lines 105-110). -/
def xorMappedAddressEncodeLen : SockAddr → Except Error Nat
  | .v4 _ _ => .ok 64
  | .v6 _ _ => .ok 160

/-- Function `AlternateServer::encode_len` (attributes/addr.rs lines 129-134). -/
def alternateServerEncodeLen : SockAddr → Except Error Nat
  | .v4 _ _ => .ok 64
  | .v6 _ _ => .ok 160

/-- Function `XorMappedAddress::encode` (attributes/addr.rs lines 99-103): the appended
value bytes, where `id` is `builder.id().0` (cookie and transaction id). -/
def xorMappedAddressEncode (id : Nat) (a : SockAddr) : List Nat :=
  encodeAddr a XOR16 COOKIE id

/-- Function `XorMappedAddress::decode` (attributes/addr.rs lines 94-97), where `id` is
`msg.id().0` of the message being parsed. -/
def xorMappedAddressDecode (id : Nat) (value : List Nat) : Except Error SockAddr :=
  decodeAddr value XOR16 COOKIE id

/-- Struct `MessageBuilder` of builder.rs: bit-packed head word, 128-bit id word,
the legacy length switch and the byte buffer. -/
structure MessageBuilder where
  head : Nat
  id : Nat
  padding_in_value_len : Bool
  buffer : List Nat
deriving DecidableEq, Repr

/-- Function `MessageBuilder::new` (builder.rs lines 17-38): `method.set` then
`class.set` build the 14-bit type, the head stores it at bits 29..16 with a
zero length field, the id word holds the cookie at bits 127..96 and the
transaction id below; both words are written big-endian into the buffer. -/
def MessageBuilder.new (c : Class) (m : Method) (tsx_id : Nat) : MessageBuilder :=
  let typ := c.setTyp (m.setTyp 0)
  let head := (typ &&& 0x3FFF) <<< 16
  let id := (COOKIE <<< 96) ||| (tsx_id % 2 ^ 96)
  { head := head, id := id, padding_in_value_len := true,
    buffer := beBytes 4 head ++ beBytes 16 id }

/-- Function `MessageBuilder::set_len` (builder.rs lines 48-57): replace bits 15..0 of
the head word and rewrite `buffer[0..4]`; `to_ne_bytes` followed by the manual
index reversal writes the head big-endian on a little-endian host.  The
buffer always starts with the 20-byte header, so replacing the first 4 bytes
models the four index assignments. -/
def MessageBuilder.setLen (b : MessageBuilder) (len : Nat) : MessageBuilder :=
  let head := ((b.head >>> 16) <<< 16) ||| (len % 2 ^ 16)
  { b with head := head, buffer := beBytes 4 head ++ b.buffer.drop 4 }

/-- Function `MessageBuilder::add_attr_with` (builder.rs lines 66-90) for an attribute
with type code `typ`, `encode_len()` value `encLen` and encode function
`encF`.  `encF` returns the bytes `A::encode` appends (every `Attribute`
implementation in the crate only appends to the buffer); it sees the builder
state after the TLV header is written and the message length is updated.
`u16::try_from(buffer.len() - 20)?` is the `TryFromInt` error; the u16
additions wrap (and `set_len` masks to 16 bits regardless). -/
def MessageBuilder.addAttrWith (b : MessageBuilder) (typ encLen : Nat)
    (encF : MessageBuilder → Except Error (List Nat)) : Except Error MessageBuilder :=
  let buf1 := b.buffer ++ beBytes 2 typ ++
    beBytes 2 (if b.padding_in_value_len then encLen + padding4 encLen else encLen)
  if buf1.length - 20 ≥ 2 ^ 16 then .error Error.tryFromInt
  else
    let b2 := MessageBuilder.setLen { b with buffer := buf1 }
      ((buf1.length - 20) + encLen + padding4 encLen)
    match encF b2 with
    | .error e => .error e
    | .ok encoded =>
      .ok { b2 with buffer := b2.buffer ++ encoded ++ List.replicate (padding4 encLen) 0 }

/-- Function `MessageBuilder::finish` (builder.rs lines 92-94). -/
def MessageBuilder.finish (b : MessageBuilder) : List Nat := b.buffer

/-- Function `new_hmac_sha1` (attributes/integrity.rs lines 45-47): the key handed to
`Hmac::<Sha1>::new_from_slice` is the 16-byte MD5 digest of the password.
`md5c` abstracts `md5::compute` (byte index to digest byte). -/
def new_hmac_sha1_key (md5c : List Nat → Nat → Nat) (password : List Nat) : List Nat :=
  (List.range 16).map (md5c password)

/-- Function `new_hmac_sha256` (attributes/integrity.rs lines 49-51): same MD5-derived
key for the HMAC-SHA256 instance. -/
def new_hmac_sha256_key (md5c : List Nat → Nat → Nat) (password : List Nat) : List Nat :=
  (List.range 16).map (md5c password)

/-- Function `message_integrity_encode` (attributes/integrity.rs lines 30-43) as the
bytes `MessageIntegrity::encode` appends: the HMAC-SHA1 digest (20 bytes,
`hm key data` abstracting the hmac crate) of the buffer minus the 4 TLV
header bytes just written. -/
def messageIntegrityEncF (hm : List Nat → List Nat → Nat → Nat) (key : List Nat)
    (b : MessageBuilder) : Except Error (List Nat) :=
  .ok ((List.range 20).map (hm key (b.buffer.take (b.buffer.length - 4))))

/-- Call `builder.add_attr(&MappedAddress(a))`: TYPE 0x0001, `encode_len` from
`mappedAddressEncodeLen` (the `.expect` on it cannot fail: both arms are Ok),
encode appends `encode_addr(a, buf, 0, 0, 0)`. -/
def addMappedAddress (b : MessageBuilder) (a : SockAddr) : Except Error MessageBuilder :=
  match mappedAddressEncodeLen a with
  | .error e => .error e
  | .ok n => b.addAttrWith 0x0001 n (fun _ => .ok (encodeAddr a 0 0 0))

/-- Call `builder.add_attr_with(&MessageIntegrity, ctx)`: TYPE 0x0008,
`encode_len = Sha1::output_size() = 20`, encode appends the HMAC digest. -/
def addMessageIntegrity (hm : List Nat → List Nat → Nat → Nat) (key : List Nat)
    (b : MessageBuilder) : Except Error MessageBuilder :=
  b.addAttrWith 0x0008 20 (messageIntegrityEncF hm key)

/-- Struct `ParsedAttr` (msg.rs lines 235-243). -/
structure ParsedAttr where
  attr_idx : Nat
  typ : Nat
  value : List Nat
deriving DecidableEq, Repr

/-- Struct `ParsedMessage` (msg.rs lines 245-256); `cls` is the `class` field. -/
structure ParsedMessage where
  buffer : List Nat
  head : Nat
  id : Nat
  cls : Class
  method : Method
  tsx_id : Nat
  attributes : List ParsedAttr
deriving DecidableEq, Repr

/-- Outcome of `ParsedMessage::parse`: `Ok(Some(_))`, `Ok(None)`, `Err(_)`,
or a panic of the `Class`/`Method` `try_from(..).unwrap()` calls. -/
inductive ParseResult
  | panicked (e : Error)
  | err (e : Error)
  | noneRes
  | okRes (m : ParsedMessage)
deriving DecidableEq, Repr

/-- The attribute loop of `ParsedMessage::parse` (msg.rs lines 279-307),
indexed by the cursor position, with explicit structural fuel: every
iteration either returns or advances the cursor by at least 4 bytes while
staying inside the buffer, so any fuel above `input.length` is never
exhausted (`parseAttrsF_fuel`).  Reading the two u16s fails with the cursor
read error when fewer than 2 resp. 4 bytes remain; `padding_end` past the
buffer is the invalid-length error; the attribute records position
(`attr_idx = value_begin - 4`), raw type and the value slice. -/
def parseAttrsF : Nat → List Nat → Nat → Except Error (List ParsedAttr)
  | 0, _, _ => .ok []
  | fuel + 1, input, pos =>
    if input.length ≤ pos then .ok []
    else if input.length < pos + 2 then .error readErrE
    else if input.length < pos + 4 then .error readErrE
    else if input.length < pos + 4 + beVal (sliceL input (pos + 2) (pos + 4)) +
        padding4 (beVal (sliceL input (pos + 2) (pos + 4))) then
      .error (Error.invalidData "Invalid attribute length in STUN message")
    else
      match parseAttrsF fuel input
          (pos + 4 + beVal (sliceL input (pos + 2) (pos + 4)) +
            padding4 (beVal (sliceL input (pos + 2) (pos + 4)))) with
      | .error e => .error e
      | .ok rest =>
        .ok ({ attr_idx := pos, typ := beVal (sliceL input pos (pos + 2)),
               value := sliceL input (pos + 4)
                 (pos + 4 + beVal (sliceL input (pos + 2) (pos + 4))) } :: rest)

def parseAttrs (input : List Nat) (pos : Nat) : Except Error (List ParsedAttr) :=
  parseAttrsF (input.length + 1) input pos

/-- Function `ParsedMessage::parse` (msg.rs lines 259-320).  Reads are
network-endian (`NE = byteorder::NetworkEndian`); `head.z()` is bits 31..30,
`head.typ()` bits 29..16, `id.cookie()` bits 127..96, `id.tsx_id()` bits
95..0.  The `Class::try_from(..).unwrap()` / `Method::try_from(..).unwrap()`
on lines 276-277 become the `panicked` outcome. -/
def parseMsg (input : List Nat) : ParseResult :=
  if input.length < 4 then .err readErrE
  else if (beVal (sliceL input 0 4) >>> 30) &&& 3 ≠ 0 then .noneRes
  else if input.length < 20 then .err readErrE
  else if beVal (sliceL input 4 20) >>> 96 ≠ COOKIE then .noneRes
  else
    match classTryFrom ((beVal (sliceL input 0 4) >>> 16) &&& 0x3FFF) with
    | .error e => .panicked e
    | .ok c =>
      match methodTryFrom ((beVal (sliceL input 0 4) >>> 16) &&& 0x3FFF) with
      | .error e => .panicked e
      | .ok m =>
        match parseAttrs input 20 with
        | .error e => .err e
        | .ok attrs =>
          .okRes { buffer := input, head := beVal (sliceL input 0 4),
                   id := beVal (sliceL input 4 20), cls := c, method := m,
                   tsx_id := beVal (sliceL input 4 20) % 2 ^ 96, attributes := attrs }

/-- Function `check_if_stun_message` (msg.rs lines 211-233) on a little-endian host:
the header words are assembled with `from_ne_bytes`, and the function's final
statement returns `false` even when every check passes. -/
def check_if_stun_message (i : List Nat) : Bool :=
  if i.length < 20 then false
  else if (leVal (sliceL i 0 4) >>> 30) &&& 3 ≠ 0 then false
  else if leVal (sliceL i 4 20) >>> 96 ≠ COOKIE then false
  else false

/-- The parse outcome with the raw head word and the buffer forgotten:
failure kind, or class, method, transaction id and attribute list. -/
inductive ParseObs
  | panickedO (e : Error)
  | errO (e : Error)
  | noneO
  | okO (c : Class) (m : Method) (tsx : Nat) (attrs : List ParsedAttr)
deriving DecidableEq, Repr

def parseObs (input : List Nat) : ParseObs :=
  match parseMsg input with
  | .panicked e => .panickedO e
  | .err e => .errO e
  | .noneRes => .noneO
  | .okRes m => .okO m.cls m.method m.tsx_id m.attributes

/-- Function `PasswordAlgorithms::encode` (attributes/password_algs.rs lines 40-51):
per record, algorithm u16, params length u16 (`u16::try_from` may fail),
params, zero padding to 4-byte alignment. -/
def passwordAlgorithmsEncode : List (Nat × List Nat) → Except Error (List Nat)
  | [] => .ok []
  | (alg, params) :: rest =>
    if params.length ≥ 2 ^ 16 then .error Error.tryFromInt
    else
      match passwordAlgorithmsEncode rest with
      | .error e => .error e
      | .ok r =>
        .ok (beBytes 2 alg ++ beBytes 2 params.length ++ params ++
          List.replicate (padding4 params.length) 0 ++ r)

/-- The loop of `PasswordAlgorithms::decode` (attributes/password_algs.rs
lines 22-35).  The cursor advances only through the two u16 reads: the
params slice does not move it, so the next iteration starts at `pos + 4`
and re-reads the params bytes as a record header.  Fueled like
`parseAttrsF`; each iteration advances by exactly 4. -/
def pwAlgsDecodeF : Nat → List Nat → Nat → Except Error (List (Nat × List Nat))
  | 0, _, _ => .ok []
  | fuel + 1, value, pos =>
    if value.length ≤ pos then .ok []
    else if value.length < pos + 2 then .error readErrE
    else if value.length < pos + 4 then .error readErrE
    else if value.length < (pos + 4) + beVal (sliceL value (pos + 2) (pos + 4)) then
      .error (Error.invalidData "invalid algorithm len")
    else
      match pwAlgsDecodeF fuel value (pos + 4) with
      | .error e => .error e
      | .ok rest =>
        .ok ((beVal (sliceL value pos (pos + 2)),
              sliceL value (pos + 4)
                (pos + 4 + beVal (sliceL value (pos + 2) (pos + 4)))) :: rest)

def passwordAlgorithmsDecode (value : List Nat) : Except Error (List (Nat × List Nat)) :=
  pwAlgsDecodeF (value.length + 1) value 0

instance {ε α : Type} [DecidableEq ε] [DecidableEq α] : DecidableEq (Except ε α) := fun x y =>
  match x, y with
  | .error a, .error b => if h : a = b then .isTrue (by rw [h]) else .isFalse (by simp [h])
  | .ok a, .ok b => if h : a = b then .isTrue (by rw [h]) else .isFalse (by simp [h])
  | .error _, .ok _ => .isFalse (by simp)
  | .ok _, .error _ => .isFalse (by simp)

/-- The builder sequence of claim C1's failing input:
`MessageBuilder::new(Request, Binding, 0)`, `add_attr(&MappedAddress(1.2.3.4:5))`,
`add_attr_with(&MessageIntegrity, hmac keyed by k)`, `finish()`. -/
def c1Build (hm : List Nat → List Nat → Nat → Nat) (k : List Nat) :
    Except Error (List Nat) :=
  match addMappedAddress (MessageBuilder.new .request .binding 0)
      (SockAddr.v4 0x01020304 5) with
  | .error e => .error e
  | .ok b1 =>
    match addMessageIntegrity hm k b1 with
    | .error e => .error e
    | .ok b2 => .ok b2.finish


/-- The byte string `c1Build` produces: the 20-byte header (final length
field 36), the MappedAddress TLV header claiming value length 64 followed by
its 8 actual value bytes, the MessageIntegrity TLV header, and the 20
abstract HMAC digest bytes (the digest input is the first 32 bytes). -/
def c1Bytes (hm : List Nat → List Nat → Nat → Nat) (k : List Nat) : List Nat :=
  [0, 1, 0, 36, 33, 18, 164, 66, 0, 0, 0, 0, 0, 0, 0, 0, 0, 0, 0, 0,
   0, 1, 0, 64, 0, 1, 0, 5, 4, 3, 2, 1, 0, 8, 0, 20] ++
  (List.range 20).map (hm k
    [0, 1, 0, 36, 33, 18, 164, 66, 0, 0, 0, 0, 0, 0, 0, 0, 0, 0, 0, 0,
     0, 1, 0, 64, 0, 1, 0, 5, 4, 3, 2, 1])

/-! ## Supporting lemmas -/

/-- Fuel insensitivity: `parseAttrsF` is stable once the fuel exceeds the remaining
byte count: each iteration advances the position by at least 4 or returns.
This justifies running the loop with fuel `input.length + 1`. -/
theorem parseAttrsF_fuel (input : List Nat) :
    ∀ f1 f2 pos, input.length - pos < f1 → input.length - pos < f2 →
      parseAttrsF f1 input pos = parseAttrsF f2 input pos := by
  intro f1
  induction f1 with
  | zero => intro f2 pos h1 _; omega
  | succ n ih =>
    intro f2 pos h1 h2
    match f2, h2 with
    | m + 1, h2 =>
      simp only [parseAttrsF]
      split
      · rfl
      · split
        · rfl
        · split
          · rfl
          · split
            · rfl
            · rw [ih m (pos + 4 + beVal (sliceL input (pos + 2) (pos + 4)) +
                padding4 (beVal (sliceL input (pos + 2) (pos + 4)))) (by omega) (by omega)]


/-- The z bits of a network-endian header word depend only on its first byte. -/
theorem beVal_four_z (a b c d : Nat) :
    (beVal [a, b, c, d] >>> 30) &&& 3 = (a % 256) >>> 6 := by
  have h : beVal [a, b, c, d] =
      (a % 256) * 16777216 + ((b % 256) * 65536 + ((c % 256) * 256 + d % 256)) := by
    simp [beVal]; ring
  rw [h, show (3 : Nat) = 2 ^ 2 - 1 from rfl, Nat.and_pow_two_sub_one_eq_mod,
    Nat.shiftRight_eq_div_pow, Nat.shiftRight_eq_div_pow]
  omega

/-- The type bits of a network-endian header word depend only on its first
two bytes. -/
theorem beVal_four_typ (a b c d : Nat) :
    (beVal [a, b, c, d] >>> 16) &&& 0x3FFF = ((a % 256) * 256 + b % 256) % 16384 := by
  have h : beVal [a, b, c, d] =
      (a % 256) * 16777216 + ((b % 256) * 65536 + ((c % 256) * 256 + d % 256)) := by
    simp [beVal]; ring
  rw [h, show (0x3FFF : Nat) = 2 ^ 14 - 1 from rfl, Nat.and_pow_two_sub_one_eq_mod,
    Nat.shiftRight_eq_div_pow]
  omega

set_option maxRecDepth 4000 in
/-- The two class bits masked by `Class::MASK` take one of four values, so
`Class::try_from` never reaches its error arm. -/
theorem classTryFrom_total (t : Nat) : ∃ c, classTryFrom t = .ok c := by
  have hmask : t &&& Class.MASK = t % 512 &&& Class.MASK := by
    have h511 : t % 512 = t &&& 511 := by
      rw [show (511 : Nat) = 2 ^ 9 - 1 from rfl, Nat.and_pow_two_sub_one_eq_mod]
    rw [h511, Nat.and_assoc, show (511 : Nat) &&& Class.MASK = Class.MASK by decide]
  have hallcases : ∀ s, s < 512 → (s &&& Class.MASK = 0x000 ∨ s &&& Class.MASK = 0x010 ∨
      s &&& Class.MASK = 0x100 ∨ s &&& Class.MASK = 0x110) := by decide
  rcases hallcases (t % 512) (Nat.mod_lt _ (by norm_num)) with h | h | h | h <;>
    rw [← hmask] at h
  · exact ⟨.request, by simp [classTryFrom, h]⟩
  · exact ⟨.indication, by simp [classTryFrom, h]⟩
  · exact ⟨.success, by simp [classTryFrom, h]⟩
  · exact ⟨.error, by simp [classTryFrom, h]⟩


/-! ## Claim theorems: closed evaluations and counterexamples -/

/-- C1: the integrity self-check claim fails on the code.  For every HMAC
function and key, the builder sequence `new(Request, Binding, 0)`;
`add_attr(&MappedAddress(1.2.3.4:5))` (which succeeds);
`add_attr_with(&MessageIntegrity, hmac keyed by k)`; `finish()` produces
bytes that `parse` rejects with the invalid-attribute-length error, because
`MappedAddress::encode_len` reports 64 while its encode appends 8 bytes, so
the claimed "parsing succeeds and MESSAGE-INTEGRITY verifies" fails. -/
theorem C1_integrity_roundtrip_fails (hm : List Nat → List Nat → Nat → Nat)
    (k : List Nat) :
    c1Build hm k = .ok (c1Bytes hm k) ∧
    parseMsg (c1Bytes hm k) =
      .err (Error.invalidData "Invalid attribute length in STUN message") := by
  refine ⟨rfl, ?_⟩
  have h3 : (c1Bytes hm k).length = 56 := rfl
  have h1 : sliceL (c1Bytes hm k) 0 4 = [0, 1, 0, 36] := rfl
  have h2 : sliceL (c1Bytes hm k) 4 20 =
    [33, 18, 164, 66, 0, 0, 0, 0, 0, 0, 0, 0, 0, 0, 0, 0] := rfl
  have h5 : sliceL (c1Bytes hm k) 22 24 = [0, 64] := rfl
  have h4 : parseAttrs (c1Bytes hm k) 20 =
      .error (Error.invalidData "Invalid attribute length in STUN message") := by
    unfold parseAttrs
    rw [parseAttrsF.eq_2, h3, h5, show beVal [0, 64] = 64 from rfl,
      show padding4 64 = 0 from rfl, if_neg (by norm_num), if_neg (by norm_num),
      if_neg (by norm_num), if_pos (by norm_num)]
  unfold parseMsg
  rw [h3, h1, h2, h4, if_neg (by norm_num), if_neg (by decide), if_neg (by norm_num),
    if_neg (by decide),
    show classTryFrom (beVal [0, 1, 0, 36] >>> 16 &&& 16383) = .ok .request from by decide,
    show methodTryFrom (beVal [0, 1, 0, 36] >>> 16 &&& 16383) = .ok .binding from by decide]

/-- C2 counterexample: with transaction id 0, `XorMappedAddress::encode` of
192.0.2.1:32853 does not produce the claimed bytes 00 01 11 A7 E1 12 A6 43,
and `XorMappedAddress::decode` of those bytes yields port 46565 (0x11A7 XOR
0xA442), not 32853. -/
theorem C2_xor_addr_counterexample :
    xorMappedAddressEncode (COOKIE <<< 96) (SockAddr.v4 0xC0000201 32853) ≠
      [0x00, 0x01, 0x11, 0xA7, 0xE1, 0x12, 0xA6, 0x43] ∧
    xorMappedAddressDecode (COOKIE <<< 96) [0x00, 0x01, 0x11, 0xA7, 0xE1, 0x12, 0xA6, 0x43] =
      .ok (SockAddr.v4 0xC0000201 46565) := by
  exact ⟨by decide, by decide⟩

/-- C2 amended: the port is XORed with the LOW 16 bits of the cookie
(`XOR16 = COOKIE & 0xFFFF = 0xA442`), and on a little-endian host the IPv4
address is reinterpreted in native byte order before the XOR with the full
cookie, so encoding 192.0.2.1:32853 with transaction id 0 yields value bytes
00 01 24 17 20 10 A4 82; decoding applies the same port XOR and a numeric
(big-endian) cookie XOR to the address, so decoding 00 01 24 17 E1 12 A6 43
from a message with transaction id 0 recovers 192.0.2.1:32853. -/
theorem C2_xor_addr_amended :
    xorMappedAddressEncode (COOKIE <<< 96) (SockAddr.v4 0xC0000201 32853) =
      [0x00, 0x01, 0x24, 0x17, 0x20, 0x10, 0xA4, 0x82] ∧
    xorMappedAddressDecode (COOKIE <<< 96) [0x00, 0x01, 0x24, 0x17, 0xE1, 0x12, 0xA6, 0x43] =
      .ok (SockAddr.v4 0xC0000201 32853) := by
  exact ⟨by decide, by decide⟩

/-- C3: for every MD5 function (16 digest bytes), the HMAC key built by
`new_hmac_sha1` / `new_hmac_sha256` from the password "pass" is the MD5
digest of the password, which cannot equal the 4 password bytes — the
short-term key is a hash of the password, not the password itself. -/
theorem C3_short_term_key_is_md5_digest (md5c : List Nat → Nat → Nat) :
    new_hmac_sha1_key md5c [112, 97, 115, 115] ≠ [112, 97, 115, 115] ∧
    new_hmac_sha256_key md5c [112, 97, 115, 115] ≠ [112, 97, 115, 115] := by
  constructor <;>
    · intro h
      have hl := congrArg List.length h
      simp [new_hmac_sha1_key, new_hmac_sha256_key] at hl

/-- C4: the address attributes report `encode_len` 64 for IPv4 and 160 for
IPv6 (bit counts), while `encode_addr` appends 8 respectively 20 bytes. -/
theorem C4_addr_encode_len_mismatch :
    mappedAddressEncodeLen (SockAddr.v4 0x01020304 5) = .ok 64 ∧
    xorMappedAddressEncodeLen (SockAddr.v4 0x01020304 5) = .ok 64 ∧
    alternateServerEncodeLen (SockAddr.v4 0x01020304 5) = .ok 64 ∧
    (encodeAddr (SockAddr.v4 0x01020304 5) 0 0 0).length = 8 ∧
    mappedAddressEncodeLen (SockAddr.v6 1 2) = .ok 160 ∧
    xorMappedAddressEncodeLen (SockAddr.v6 1 2) = .ok 160 ∧
    alternateServerEncodeLen (SockAddr.v6 1 2) = .ok 160 ∧
    (encodeAddr (SockAddr.v6 1 2) 0 0 0).length = 20 := by
  refine ⟨rfl, rfl, rfl, rfl, rfl, rfl, rfl, rfl⟩

/-- C6: `check_if_stun_message` returns `false` for every input, including
buffers that satisfy all three structural checks, because its final
statement is `false`. -/
theorem C6_check_is_stun_always_false : ∀ i, check_if_stun_message i = false := by
  intro i
  simp only [check_if_stun_message]
  split
  · rfl
  · split
    · rfl
    · split
      · rfl
      · rfl

/-- C9: `PasswordAlgorithms::decode` is not a left inverse of encode: for the
single record (algorithm 1, params AB CD EF 12), encode produces
00 01 00 04 AB CD EF 12 but decode fails with "invalid algorithm len",
because the loop never advances the cursor past the params bytes and
re-reads AB CD / EF 12 as a second record header. -/
theorem C9_password_algorithms_roundtrip_fails :
    passwordAlgorithmsEncode [(1, [0xAB, 0xCD, 0xEF, 0x12])] =
      .ok [0x00, 0x01, 0x00, 0x04, 0xAB, 0xCD, 0xEF, 0x12] ∧
    passwordAlgorithmsDecode [0x00, 0x01, 0x00, 0x04, 0xAB, 0xCD, 0xEF, 0x12] =
      .error (Error.invalidData "invalid algorithm len") := by
  exact ⟨by decide, by decide⟩

/-- C5 counterexample: the 19-byte all-zero buffer makes `parse` return the
read error, not `Ok(None)` as the claim states. -/
theorem C5_short_input_counterexample :
    parseMsg (List.replicate 19 0) ≠ ParseResult.noneRes ∧
    parseMsg (List.replicate 19 0) = .err readErrE := by
  exact ⟨by decide, by decide⟩

/-- C7 counterexample: a freshly constructed builder has
`padding_in_value_len = true`, and adding an attribute with `encode_len` 1
(a one-byte Username) writes 00 04 — value length plus padding — into the
TLV length field at buffer bytes 22..24, not the claimed 00 01. -/
theorem C7_padding_default_counterexample :
    (MessageBuilder.new .request .binding 0).padding_in_value_len = true ∧
    ((MessageBuilder.new .request .binding 0).addAttrWith 0x0006 1
        fun _ => .ok [97]).map (fun b => sliceL b.buffer 22 24) = .ok [0, 4] ∧
    [(0 : Nat), 4] ≠ [0, 1] := by
  refine ⟨rfl, by decide, by decide⟩

/-- C8 counterexample: a well-formed 20-byte buffer whose type word is
0x0002 (method bits 2, not a known method) makes `parse` panic on the
`Method::try_from(..).unwrap()` instead of running to completion. -/
theorem C8_unknown_method_counterexample :
    parseMsg ([0x00, 0x02, 0x00, 0x00, 0x21, 0x12, 0xA4, 0x42] ++ List.replicate 12 0) =
      .panicked (Error.invalidData "unknown method") := by
  decide


/-- C5 amended: a buffer shorter than 20 bytes never parses to a message,
but the outcome is `Ok(None)` only when the 4-byte header word could be read
and its z bits are nonzero; otherwise one of the two header reads fails and
`parse` returns the read error (`Err`, not `None`). -/
theorem C5_short_input_amended (input : List Nat) (hlen : input.length < 20) :
    parseMsg input =
      if 4 ≤ input.length ∧ (input.headD 0 % 256) >>> 6 ≠ 0 then ParseResult.noneRes
      else .err readErrE := by
  obtain _ | ⟨a, _ | ⟨b, _ | ⟨c, _ | ⟨d, rest⟩⟩⟩⟩ := input
  · rfl
  · rfl
  · rfl
  · rfl
  · have hsl : sliceL (a :: b :: c :: d :: rest) 0 4 = [a, b, c, d] := rfl
    have h4 : ¬((a :: b :: c :: d :: rest).length < 4) := by simp
    unfold parseMsg
    rw [hsl, beVal_four_z, if_neg h4]
    by_cases hznz : (a % 256) >>> 6 ≠ 0
    · rw [if_pos hznz,
        if_pos (show 4 ≤ (a :: b :: c :: d :: rest).length ∧
          ((a :: b :: c :: d :: rest).headD 0 % 256) >>> 6 ≠ 0 from
          ⟨by simp, by simpa using hznz⟩)]
    · rw [if_neg hznz, if_pos hlen,
        if_neg (show ¬(4 ≤ (a :: b :: c :: d :: rest).length ∧
          ((a :: b :: c :: d :: rest).headD 0 % 256) >>> 6 ≠ 0) from
          fun h => hznz (by simpa using h.2))]

/-- C5 witness: an 11-byte buffer starting 0xC0 has nonzero z bits, so the
amended theorem yields `Ok(None)` there. -/
theorem C5_short_input_witness :
    parseMsg (192 :: List.replicate 10 0) = ParseResult.noneRes := by
  have h := C5_short_input_amended (192 :: List.replicate 10 0) (by decide)
  rw [h]
  decide


/-- C8 amended: errors on the type field are not deferred.  For every buffer
of at least 20 bytes with zero z bits and matching magic cookie whose masked
method bits (`type & 0x3EEF`) differ from Binding's 0x001, `parse` does not
run to completion: it panics on the `Method::try_from(..).unwrap()` with
"unknown method" (the 2-bit class field always decodes, so the class unwrap
never fires). -/
theorem C8_unknown_method_amended (input : List Nat)
    (h4 : ¬(input.length < 4))
    (hz : (beVal (sliceL input 0 4) >>> 30) &&& 3 = 0)
    (h20 : ¬(input.length < 20))
    (hck : beVal (sliceL input 4 20) >>> 96 = COOKIE)
    (hm : ((beVal (sliceL input 0 4) >>> 16) &&& 0x3FFF) &&& Method.MASK ≠ 0x1) :
    parseMsg input = .panicked (Error.invalidData "unknown method") := by
  unfold parseMsg
  rw [if_neg h4, if_neg (by simp [hz]), if_neg h20, if_neg (by simp [hck])]
  obtain ⟨c, hc⟩ := classTryFrom_total ((beVal (sliceL input 0 4) >>> 16) &&& 0x3FFF)
  rw [hc, show methodTryFrom ((beVal (sliceL input 0 4) >>> 16) &&& 0x3FFF) =
    .error (Error.invalidData "unknown method") from by simp [methodTryFrom, hm]]

/-- C8 witness: the amended theorem applied to a 20-byte buffer with type
word 0x0003 (masked method bits 3). -/
theorem C8_unknown_method_witness :
    parseMsg ([0x00, 0x03, 0x00, 0x00, 0x21, 0x12, 0xA4, 0x42] ++ List.replicate 12 0) =
      .panicked (Error.invalidData "unknown method") :=
  C8_unknown_method_amended _ (by decide) (by decide) (by decide) (by decide) (by decide)


theorem beBytes_length (k n : Nat) : (beBytes k n).length = k := by
  induction k generalizing n with
  | zero => rfl
  | succ m ih => simp [beBytes, ih]

/-- Slicing past a prefix of an append. -/
theorem sliceL_append_right (P S : List Nat) (s e : Nat) (h : P.length ≤ s) :
    sliceL (P ++ S) s e = sliceL S (s - P.length) (e - P.length) := by
  unfold sliceL
  rw [List.drop_append_eq_append_drop, List.drop_eq_nil_of_le (by omega), List.nil_append]
  congr 1
  omega

/-- Slicing exactly the first block of an append. -/
theorem sliceL_head (F S : List Nat) (e : Nat) (he : e = F.length) :
    sliceL (F ++ S) 0 e = F := by
  subst he
  unfold sliceL
  rw [List.drop_zero, Nat.sub_zero, List.take_left]

/-- C7 amended: a freshly constructed builder has the legacy switch ON
(`padding_in_value_len = true`), so by default the u16 written into an
attribute's TLV length field (buffer bytes `len+2 .. len+4` for a builder
whose buffer held `len` bytes) is the encoded value length PLUS padding;
only when the caller disables the switch is it the bare encoded length. -/
theorem C7_padding_default_amended :
    (∀ c m t, (MessageBuilder.new c m t).padding_in_value_len = true) ∧
    (∀ (b : MessageBuilder) (typ encLen : Nat)
        (encF : MessageBuilder → Except Error (List Nat)) (B : MessageBuilder),
      20 ≤ b.buffer.length →
      b.addAttrWith typ encLen encF = .ok B →
      sliceL B.buffer (b.buffer.length + 2) (b.buffer.length + 4) =
        beBytes 2 (if b.padding_in_value_len then encLen + padding4 encLen else encLen)) := by
  constructor
  · intro c m t
    rfl
  · intro b typ encLen encF B h20 hB
    simp only [MessageBuilder.addAttrWith] at hB
    set FLD := (if b.padding_in_value_len then encLen + padding4 encLen else encLen) with hFLD
    split at hB
    · exact absurd hB (by simp)
    · split at hB
      · exact absurd hB (by simp)
      · rw [Except.ok.injEq] at hB
        subst hB
        simp only [MessageBuilder.setLen]
        rw [show (b.buffer ++ beBytes 2 typ ++ beBytes 2 FLD).drop 4 =
            b.buffer.drop 4 ++ beBytes 2 typ ++ beBytes 2 FLD from by
          rw [List.append_assoc, List.drop_append_eq_append_drop,
            show 4 - b.buffer.length = 0 by omega, List.drop_zero, ← List.append_assoc]]
        simp only [List.append_assoc]
        rw [sliceL_append_right _ _ _ _ (by rw [beBytes_length]; omega),
          beBytes_length,
          sliceL_append_right _ _ _ _ (by rw [List.length_drop]; omega),
          List.length_drop,
          show b.buffer.length + 2 - 4 - (b.buffer.length - 4) = 2 by omega,
          show b.buffer.length + 4 - 4 - (b.buffer.length - 4) = 4 by omega,
          sliceL_append_right _ _ _ _ (by rw [beBytes_length]),
          beBytes_length,
          show (2 : Nat) - 2 = 0 by omega,
          show (4 : Nat) - 2 = 2 by omega,
          sliceL_head _ _ _ (by rw [beBytes_length])]


/-- C7 witness: the amended theorem applied to a fresh builder and a one-byte
attribute (`encode_len` 1, type 0x0006). -/
theorem C7_padding_default_witness :
    ∃ B, (MessageBuilder.new .request .binding 0).addAttrWith 0x0006 1
        (fun _ => .ok [97]) = .ok B ∧
      sliceL B.buffer ((MessageBuilder.new .request .binding 0).buffer.length + 2)
        ((MessageBuilder.new .request .binding 0).buffer.length + 4) =
        beBytes 2 (if (MessageBuilder.new .request .binding 0).padding_in_value_len
          then 1 + padding4 1 else 1) := by
  refine ⟨_, rfl, ?_⟩
  exact C7_padding_default_amended.2 _ 0x0006 1 (fun _ => .ok [97]) _ (by decide) rfl

/-- The attribute loop never looks at buffer bytes below its start position:
two buffers sharing everything except bytes 2 and 3 parse to the same
attribute list from any position ≥ 4. -/
theorem parseAttrsF_congr (a b c d c1 d1 : Nat) (rest : List Nat) :
    ∀ fuel pos, 4 ≤ pos →
      parseAttrsF fuel (a :: b :: c :: d :: rest) pos =
        parseAttrsF fuel (a :: b :: c1 :: d1 :: rest) pos := by
  intro fuel
  induction fuel with
  | zero => intro pos _; rfl
  | succ n ih =>
    intro pos hpos
    obtain ⟨p, rfl⟩ : ∃ p, pos = p + 4 := ⟨pos - 4, by omega⟩
    have elen : (a :: b :: c :: d :: rest).length = (a :: b :: c1 :: d1 :: rest).length := rfl
    have e2 : sliceL (a :: b :: c :: d :: rest) (p + 4) (p + 4 + 2) =
        sliceL (a :: b :: c1 :: d1 :: rest) (p + 4) (p + 4 + 2) := rfl
    have e1 : sliceL (a :: b :: c :: d :: rest) (p + 4 + 2) (p + 4 + 4) =
        sliceL (a :: b :: c1 :: d1 :: rest) (p + 4 + 2) (p + 4 + 4) := rfl
    have e3 : sliceL (a :: b :: c :: d :: rest) (p + 4 + 4)
          (p + 4 + 4 + beVal (sliceL (a :: b :: c1 :: d1 :: rest) (p + 4 + 2) (p + 4 + 4))) =
        sliceL (a :: b :: c1 :: d1 :: rest) (p + 4 + 4)
          (p + 4 + 4 + beVal (sliceL (a :: b :: c1 :: d1 :: rest) (p + 4 + 2) (p + 4 + 4))) := rfl
    simp only [parseAttrsF]
    simp only [elen, e1, e2, e3]
    rw [ih (p + 4 + 4 + beVal (sliceL (a :: b :: c1 :: d1 :: rest) (p + 4 + 2) (p + 4 + 4)) +
      padding4 (beVal (sliceL (a :: b :: c1 :: d1 :: rest) (p + 4 + 2) (p + 4 + 4))))
      (by omega)]


/-- C10: the parser never consults the header length field.  Two buffers that
differ only in bytes 2 and 3 — the low 16 bits of the first network-endian
header word — produce the same parse outcome, and on success the same class,
method, transaction id and attribute list (types, offsets and value bytes);
only the retained raw head word and buffer copy differ. -/
theorem C10_parse_ignores_header_length (a b c d c1 d1 : Nat) (rest : List Nat) :
    parseObs (a :: b :: c :: d :: rest) = parseObs (a :: b :: c1 :: d1 :: rest) := by
  have hs1 : sliceL (a :: b :: c :: d :: rest) 0 4 = [a, b, c, d] := rfl
  have hs2 : sliceL (a :: b :: c1 :: d1 :: rest) 0 4 = [a, b, c1, d1] := rfl
  have hz : (beVal (sliceL (a :: b :: c :: d :: rest) 0 4) >>> 30) &&& 3 =
      (beVal (sliceL (a :: b :: c1 :: d1 :: rest) 0 4) >>> 30) &&& 3 := by
    rw [hs1, hs2, beVal_four_z, beVal_four_z]
  have htyp : (beVal (sliceL (a :: b :: c :: d :: rest) 0 4) >>> 16) &&& 0x3FFF =
      (beVal (sliceL (a :: b :: c1 :: d1 :: rest) 0 4) >>> 16) &&& 0x3FFF := by
    rw [hs1, hs2, beVal_four_typ, beVal_four_typ]
  have hid : sliceL (a :: b :: c :: d :: rest) 4 20 =
      sliceL (a :: b :: c1 :: d1 :: rest) 4 20 := rfl
  have hlen : (a :: b :: c :: d :: rest).length = (a :: b :: c1 :: d1 :: rest).length := rfl
  have hattrs : parseAttrs (a :: b :: c :: d :: rest) 20 =
      parseAttrs (a :: b :: c1 :: d1 :: rest) 20 := by
    unfold parseAttrs
    rw [hlen, parseAttrsF_congr a b c d c1 d1 rest _ 20 (by omega)]
  by_cases h4 : (a :: b :: c :: d :: rest).length < 4
  · have e1 : parseMsg (a :: b :: c :: d :: rest) = .err readErrE := by
      unfold parseMsg; rw [if_pos h4]
    have e2 : parseMsg (a :: b :: c1 :: d1 :: rest) = .err readErrE := by
      unfold parseMsg; rw [if_pos (hlen ▸ h4)]
    unfold parseObs
    rw [e1, e2]
  · by_cases hzc : (beVal (sliceL (a :: b :: c1 :: d1 :: rest) 0 4) >>> 30) &&& 3 ≠ 0
    · have e1 : parseMsg (a :: b :: c :: d :: rest) = .noneRes := by
        unfold parseMsg; rw [if_neg h4, if_pos (by rw [hz]; exact hzc)]
      have e2 : parseMsg (a :: b :: c1 :: d1 :: rest) = .noneRes := by
        unfold parseMsg; rw [if_neg (hlen ▸ h4), if_pos hzc]
      unfold parseObs
      rw [e1, e2]
    · by_cases h20 : (a :: b :: c :: d :: rest).length < 20
      · have e1 : parseMsg (a :: b :: c :: d :: rest) = .err readErrE := by
          unfold parseMsg; rw [if_neg h4, if_neg (by rw [hz]; exact hzc), if_pos h20]
        have e2 : parseMsg (a :: b :: c1 :: d1 :: rest) = .err readErrE := by
          unfold parseMsg; rw [if_neg (hlen ▸ h4), if_neg hzc, if_pos (hlen ▸ h20)]
        unfold parseObs
        rw [e1, e2]
      · by_cases hck : beVal (sliceL (a :: b :: c1 :: d1 :: rest) 4 20) >>> 96 ≠ COOKIE
        · have e1 : parseMsg (a :: b :: c :: d :: rest) = .noneRes := by
            unfold parseMsg
            rw [if_neg h4, if_neg (by rw [hz]; exact hzc), if_neg h20,
              if_pos (by rw [hid]; exact hck)]
          have e2 : parseMsg (a :: b :: c1 :: d1 :: rest) = .noneRes := by
            unfold parseMsg
            rw [if_neg (hlen ▸ h4), if_neg hzc, if_neg (hlen ▸ h20), if_pos hck]
          unfold parseObs
          rw [e1, e2]
        · obtain ⟨cc, hcc⟩ :=
            classTryFrom_total ((beVal (sliceL (a :: b :: c1 :: d1 :: rest) 0 4) >>> 16) &&& 0x3FFF)
          cases hmv : methodTryFrom
              ((beVal (sliceL (a :: b :: c1 :: d1 :: rest) 0 4) >>> 16) &&& 0x3FFF) with
          | error e =>
            have e1 : parseMsg (a :: b :: c :: d :: rest) = .panicked e := by
              unfold parseMsg
              rw [if_neg h4, if_neg (by rw [hz]; exact hzc), if_neg h20,
                if_neg (by rw [hid]; exact hck), htyp, hcc, hmv]
            have e2 : parseMsg (a :: b :: c1 :: d1 :: rest) = .panicked e := by
              unfold parseMsg
              rw [if_neg (hlen ▸ h4), if_neg hzc, if_neg (hlen ▸ h20), if_neg hck, hcc, hmv]
            unfold parseObs
            rw [e1, e2]
          | ok mm =>
            cases hatt : parseAttrs (a :: b :: c1 :: d1 :: rest) 20 with
            | error e =>
              have e1 : parseMsg (a :: b :: c :: d :: rest) = .err e := by
                unfold parseMsg
                rw [if_neg h4, if_neg (by rw [hz]; exact hzc), if_neg h20,
                  if_neg (by rw [hid]; exact hck), htyp, hcc, hmv, hattrs, hatt]
              have e2 : parseMsg (a :: b :: c1 :: d1 :: rest) = .err e := by
                unfold parseMsg
                rw [if_neg (hlen ▸ h4), if_neg hzc, if_neg (hlen ▸ h20), if_neg hck,
                  hcc, hmv, hatt]
              unfold parseObs
              rw [e1, e2]
            | ok attrs =>
              have e1 : parseMsg (a :: b :: c :: d :: rest) =
                  .okRes { buffer := a :: b :: c :: d :: rest,
                           head := beVal (sliceL (a :: b :: c :: d :: rest) 0 4),
                           id := beVal (sliceL (a :: b :: c :: d :: rest) 4 20),
                           cls := cc, method := mm,
                           tsx_id := beVal (sliceL (a :: b :: c :: d :: rest) 4 20) % 2 ^ 96,
                           attributes := attrs } := by
                unfold parseMsg
                rw [if_neg h4, if_neg (by rw [hz]; exact hzc), if_neg h20,
                  if_neg (by rw [hid]; exact hck), htyp, hcc, hmv, hattrs, hatt]
              have e2 : parseMsg (a :: b :: c1 :: d1 :: rest) =
                  .okRes { buffer := a :: b :: c1 :: d1 :: rest,
                           head := beVal (sliceL (a :: b :: c1 :: d1 :: rest) 0 4),
                           id := beVal (sliceL (a :: b :: c1 :: d1 :: rest) 4 20),
                           cls := cc, method := mm,
                           tsx_id := beVal (sliceL (a :: b :: c1 :: d1 :: rest) 4 20) % 2 ^ 96,
                           attributes := attrs } := by
                unfold parseMsg
                rw [if_neg (hlen ▸ h4), if_neg hzc, if_neg (hlen ▸ h20), if_neg hck,
                  hcc, hmv, hatt]
              unfold parseObs
              rw [e1, e2, hid]

end Stun
